import Mathlib

/-!
Shallow embedding of the First-RAG-App core (document chunker, in-memory
vector store with cosine-similarity search, retrieval orchestration with
generation fallback), translated from the JavaScript sources
`src/documents.js`, `src/vectorStore.js`, `src/retrieval.js`,
`src/generation.js` and `src/embedding.js`.

Modelling conventions:
* JavaScript strings are modelled as `List Char` (so that character-level
  operations such as `slice`, `lastIndexOf`, `trim` are plain recursive
  functions).
* JavaScript numbers used as indices/positions are modelled as `Int`
  (cursors in the chunker can go negative, and `slice` treats negative
  positions specially); embedding coordinates are modelled as real numbers.
* Network calls (Hugging Face embedding / text generation) are modelled as
  oracle functions returning `Except String` outcomes; the orchestrator
  additionally records the calls it makes, so that claims of the form
  "no gateway call is made" are expressible.
* `throw`/`try`/`catch` is modelled with `Except String`.
* The potentially non-terminating chunking `while` loop is modelled with an
  explicit fuel parameter; termination of the source loop corresponds to
  `∃ fuel, result = some _`.
-/

/-! ## JavaScript string primitives over `List Char` -/

/-- JavaScript whitespace class (`\s`, and the characters removed by
`String.prototype.trim`), restricted to the ASCII range actually relevant
to this code base. -/
def isJsWs (c : Char) : Bool :=
  c == ' ' || c == '\t' || c == '\n' || c == '\r' || c == '\x0b' || c == '\x0c'

/-- Leading-whitespace removal (`trimStart`). -/
def jsTrimStart (l : List Char) : List Char := l.dropWhile isJsWs

/-- Trailing-whitespace removal (`trimEnd`). -/
def jsTrimEnd (l : List Char) : List Char :=
  (l.reverse.dropWhile isJsWs).reverse

/-- JavaScript `String.prototype.trim`. -/
def jsTrim (l : List Char) : List Char := jsTrimEnd (jsTrimStart l)

/-- JavaScript `String.prototype.toLowerCase` (ASCII range). -/
def jsToLower (l : List Char) : List Char := l.map Char.toLower

/-- JavaScript `String.prototype.includes` (substring containment). -/
def jsIncludes (hay needle : List Char) : Bool :=
  needle.isPrefixOf hay ||
    match hay with
    | [] => false
    | _ :: t => jsIncludes t needle

/-- JavaScript `hay.split(sep)` for a one-character separator string:
splits at every occurrence of `sep`, keeping empty pieces. -/
def jsSplitChar (sep : Char) : List Char → List (List Char)
  | [] => [[]]
  | c :: rest =>
    if c == sep then
      [] :: jsSplitChar sep rest
    else
      match jsSplitChar sep rest with
      | [] => [[c]]
      | piece :: pieces => (c :: piece) :: pieces

/-- JavaScript `Array.prototype.join(sep)` on an array of strings. -/
def jsJoin (sep : List Char) (parts : List (List Char)) : List Char :=
  List.intercalate sep parts

/-- `text.slice(start, end)` with full JavaScript index semantics:
negative indices count from the end, indices are clamped to `[0, length]`,
and an empty string results when the resolved start is not before the
resolved end. -/
def jsSlice (text : List Char) (a b : Int) : List Char :=
  let len : Int := text.length
  let lo : Int := if a < 0 then max (len + a) 0 else min a len
  let hi : Int := if b < 0 then max (len + b) 0 else min b len
  if lo < hi then (text.drop lo.toNat).take (hi - lo).toNat else []

/-- `text.lastIndexOf(c, fromIndex)` for a one-character search string:
the largest position `i ≤ fromIndex` holding `c`, or `-1`. -/
def jsLastIndexOf (text : List Char) (c : Char) (fromIndex : Int) : Int :=
  let rec go : List Char → Int → Int → Int
    | [], _, best => best
    | x :: rest, i, best =>
      go rest (i + 1) (if x == c && i ≤ fromIndex then i else best)
  go text 0 (-1)

/-! ## DocumentProcessor.chunkText (src/documents.js) -/

namespace DocumentProcessor

/-- The window-end computation of one iteration of the chunking loop:
start from `start + chunkSize`; if that is inside the text, snap back to
the nearest sentence terminator (`.`, `?`, `!`) past the 50% point, else to
the nearest space past the 50% point, else keep the raw boundary.
The JavaScript comparison `x > start + chunkSize * 0.5` is exact on the
integers involved and is rendered here as `2 * x > 2 * start + chunkSize`. -/
def chunkEnd (chunkSize : Int) (text : List Char) (start : Int) : Int :=
  let e := start + chunkSize
  if e < (text.length : Int) then
    let sentenceEnd := jsLastIndexOf text '.' e
    let questionEnd := jsLastIndexOf text '?' e
    let exclamationEnd := jsLastIndexOf text '!' e
    let sentenceBoundary := max sentenceEnd (max questionEnd exclamationEnd)
    if 2 * sentenceBoundary > 2 * start + chunkSize then
      sentenceBoundary + 1
    else
      let wordBoundary := jsLastIndexOf text ' ' e
      if 2 * wordBoundary > 2 * start + chunkSize then wordBoundary else e
  else e

/-- The `while (start < text.length)` loop of `chunkText`, with fuel.
`none` means the fuel ran out before the loop finished. -/
def chunkLoop (chunkSize chunkOverlap : Int) (text : List Char) :
    Nat → Int → List (List Char) → Option (List (List Char))
  | fuel, start, chunks =>
    if start < (text.length : Int) then
      match fuel with
      | 0 => none
      | fuel + 1 =>
        let e := chunkEnd chunkSize text start
        let chunk := jsTrim (jsSlice text start e)
        let chunks' := if chunk.length > 0 then chunks ++ [chunk] else chunks
        chunkLoop chunkSize chunkOverlap text fuel (e - chunkOverlap) chunks'
    else some chunks

/-- `DocumentProcessor.chunkText`: short texts are returned whole (trimmed),
longer texts go through the chunking loop. -/
def chunkText (chunkSize chunkOverlap : Int) (text : List Char) (fuel : Nat) :
    Option (List (List Char)) :=
  if (text.length : Int) ≤ chunkSize then some [jsTrim text]
  else chunkLoop chunkSize chunkOverlap text fuel 0 []

/-- The source `while` loop terminates on `text` exactly when some finite
fuel suffices. -/
def ChunkTextTerminates (chunkSize chunkOverlap : Int) (text : List Char) : Prop :=
  ∃ fuel, (chunkText chunkSize chunkOverlap text fuel).isSome

end DocumentProcessor

/-! ## SimpleVectorStore (src/vectorStore.js) -/

/-- The metadata object passed by `RAGSystem.addDocument` to
`SimpleVectorStore.addDocument`. -/
structure DocMeta where
  sourceFile : List Char
  fileType : List Char
  chunkIndex : Nat
  totalChunks : Nat
deriving Repr, DecidableEq

/-- The metadata record stored by `SimpleVectorStore.addDocument`: the
caller's metadata spread together with the assigned `id` and an insertion
timestamp (`new Date().toISOString()`, modelled as an externally supplied
string). -/
structure StoredMeta where
  base : DocMeta
  id : Nat
  timestamp : List Char
deriving Repr, DecidableEq

instance : Inhabited StoredMeta :=
  ⟨⟨⟨[], [], 0, 0⟩, 0, []⟩⟩

/-- The three parallel arrays of `SimpleVectorStore`. -/
structure SimpleVectorStore where
  documents : List (List Char)
  embeddings : List (List ℝ)
  metadata : List StoredMeta

namespace SimpleVectorStore

/-- The freshly constructed (or cleared) store. -/
def emptyStore : SimpleVectorStore := ⟨[], [], []⟩

/-- `SimpleVectorStore.addDocument`: pushes onto all three arrays; the
stored id is `this.documents.length - 1` evaluated after the push, i.e. the
length before the push. -/
def addDocument (s : SimpleVectorStore) (text : List Char) (embedding : List ℝ)
    (meta : DocMeta) (timestamp : List Char) : SimpleVectorStore :=
  { documents := s.documents ++ [text]
    embeddings := s.embeddings ++ [embedding]
    metadata := s.metadata ++ [{ base := meta, id := s.documents.length, timestamp }] }

/-- `SimpleVectorStore.cosineSimilarity`: throws on a length mismatch,
returns exactly `0` when either norm is zero, and otherwise
`dot / (normA * normB)`. Real numbers stand in for JavaScript floats. -/
noncomputable def cosineSimilarity (vecA vecB : List ℝ) : Except String ℝ :=
  if vecA.length ≠ vecB.length then
    .error "Vectors must be of the same length"
  else
    let dotProduct : ℝ := (List.zipWith (· * ·) vecA vecB).sum
    let normA : ℝ := Real.sqrt ((vecA.map (fun x => x ^ 2)).sum)
    let normB : ℝ := Real.sqrt ((vecB.map (fun x => x ^ 2)).sum)
    if normA = 0 ∨ normB = 0 then .ok 0
    else .ok (dotProduct / (normA * normB))

/-- One element of the array built inside `search`. -/
structure SearchResult where
  index : Nat
  similarity : ℝ
  document : List Char
  metadata : StoredMeta

/-- The `similarities` array of `search`: one scored record per stored
embedding, in store order; any `cosineSimilarity` throw aborts the whole
computation. -/
noncomputable def searchScored (s : SimpleVectorStore) (queryEmbedding : List ℝ) :
    Except String (List SearchResult) :=
  s.embeddings.enum.mapM fun p =>
    (cosineSimilarity queryEmbedding p.2).map fun sim =>
      { index := p.1
        similarity := sim
        document := s.documents.getD p.1 []
        metadata := s.metadata.getD p.1 default }

/-- The descending-similarity comparison used by
`.sort((a, b) => b.similarity - a.similarity)` (stable in JavaScript,
modelled by a stable merge sort). -/
noncomputable def simLE (a b : SearchResult) : Bool :=
  decide (b.similarity ≤ a.similarity)

/-- `SimpleVectorStore.search`: empty store short-circuits to `[]`;
otherwise score every entry, sort descending by similarity (stably) and
keep the first `topK`. -/
noncomputable def search (s : SimpleVectorStore) (queryEmbedding : List ℝ)
    (topK : Nat) : Except String (List SearchResult) :=
  if s.embeddings.length = 0 then .ok []
  else
    (s.searchScored queryEmbedding).map fun similarities =>
      (similarities.mergeSort simLE).take topK

/-- `SimpleVectorStore.getAllDocuments`. -/
def getAllDocuments (s : SimpleVectorStore) :
    List (Nat × List Char × List ℝ × StoredMeta) :=
  s.documents.enum.map fun p =>
    (p.1, p.2, s.embeddings.getD p.1 [], s.metadata.getD p.1 default)

/-- `SimpleVectorStore.getDocumentCount`. -/
def getDocumentCount (s : SimpleVectorStore) : Nat := s.documents.length

/-- `SimpleVectorStore.clear`: resets the three arrays. -/
def clear (_s : SimpleVectorStore) : SimpleVectorStore := emptyStore

/-- Store well-formedness: the three arrays have equal length and the
`i`-th metadata record carries id `i`. -/
def StoreWF (s : SimpleVectorStore) : Prop :=
  s.documents.length = s.embeddings.length ∧
  s.documents.length = s.metadata.length ∧
  ∀ i, i < s.metadata.length → (s.metadata.getD i default).id = i

instance (s : SimpleVectorStore) : Decidable (StoreWF s) := by
  unfold StoreWF; infer_instance

end SimpleVectorStore

/-! ## A small backtracking regular-expression engine

`src/generation.js` drives its fallback extraction with JavaScript regular
expressions. The engine below implements standard leftmost, greedy,
backtracking matching with numbered capture groups — the semantics of the
(feature subset of) JavaScript regexes used there. Each source pattern is
transliterated into a `JsRegex.RE` value further down. -/

namespace JsRegex

/-- Capture assignments; later assignments to the same group shadow
earlier ones. -/
abbrev Caps := List (Nat × List Char)

def setCap (n : Nat) (v : List Char) (caps : Caps) : Caps := (n, v) :: caps

def getCap (caps : Caps) (n : Nat) : Option (List Char) :=
  (caps.find? (fun p => p.1 == n)).map (·.2)

/-- Regex syntax: empty, single character from a class, concatenation,
(left-preferential) alternation, greedy Kleene iteration, capture group. -/
inductive RE where
  | eps : RE
  | sym : (Char → Bool) → RE
  | cat : RE → RE → RE
  | alt : RE → RE → RE
  | rep : RE → RE
  | grp : Nat → RE → RE

mutual
/-- Continuation-passing backtracking matcher: try to match `r` against a
prefix of the input and give the remainder (and captures) to the
continuation; `none` means every alternative failed. -/
def reM : RE → List Char → Caps → (List Char → Caps → Option (List Char × Caps)) →
    Option (List Char × Caps)
  | .eps, s, caps, k => k s caps
  | .sym p, s, caps, k =>
    match s with
    | [] => none
    | c :: rest => if p c then k rest caps else none
  | .cat r1 r2, s, caps, k => reM r1 s caps (fun s' caps' => reM r2 s' caps' k)
  | .alt r1 r2, s, caps, k => reM r1 s caps k <|> reM r2 s caps k
  | .rep r, s, caps, k => repM r s.length s caps k
  | .grp n r, s, caps, k =>
    reM r s caps (fun s' caps' => k s' (setCap n (s.take (s.length - s'.length)) caps'))
termination_by r _ _ _ => (sizeOf r, 0)

/-- Greedy iteration: prefer one more copy of the body (it must consume at
least one character to keep iterating — a zero-width body match ends the
iteration, as in JavaScript), falling back to the continuation. The fuel
starts at the input length, which the strict-consumption rule can never
exhaust early. -/
def repM : RE → Nat → List Char → Caps → (List Char → Caps → Option (List Char × Caps)) →
    Option (List Char × Caps)
  | _, 0, s, caps, k => k s caps
  | r, fuel + 1, s, caps, k =>
    (reM r s caps fun s' caps' =>
      if s'.length < s.length then repM r fuel s' caps' k else k s' caps') <|>
    k s caps
termination_by r fuel _ _ _ => (sizeOf r, fuel + 1)
end

/-- Match `r` against a prefix of `s`, returning remainder and captures. -/
def reRun (r : RE) (s : List Char) : Option (List Char × Caps) :=
  reM r s [] fun rest caps => some (rest, caps)

/-- One regex match: the matched text (`match[0]`) and its captures. -/
structure RMatch where
  matched : List Char
  caps : Caps

/-- Leftmost match at or after `pos`, with its start position. -/
def firstMatchFrom (r : RE) (text : List Char) (pos : Nat) : Option (Nat × RMatch) :=
  if pos ≤ text.length then
    match reRun r (text.drop pos) with
    | some (rest, caps) =>
      some (pos, ⟨(text.drop pos).take (text.length - pos - rest.length), caps⟩)
    | none => firstMatchFrom r text (pos + 1)
  else none
termination_by text.length + 1 - pos

/-- The `while ((match = pattern.exec(text)) !== null)` loop of a global
regex: successive non-overlapping leftmost matches. (The guard `max _ 1`
mirrors the fact that none of the source patterns can match the empty
string; it only makes the model total.) -/
def allMatchesAux (r : RE) (text : List Char) : Nat → Nat → List RMatch
  | _, 0 => []
  | pos, fuel + 1 =>
    match firstMatchFrom r text pos with
    | none => []
    | some (ps, m) => m :: allMatchesAux r text (ps + max m.matched.length 1) fuel

def allMatches (r : RE) (text : List Char) : List RMatch :=
  allMatchesAux r text 0 (text.length + 1)

/-! Pattern-building helpers. -/

def reChr (c : Char) : RE := .sym (fun x => x == c)

def reStr (s : String) : RE := s.data.foldr (fun c acc => .cat (reChr c) acc) .eps

/-- Left-preferential alternation of a non-empty pattern list. -/
def reAlts : List RE → RE
  | [] => .eps
  | [r] => r
  | r :: rest => .alt r (reAlts rest)

def rePlus (r : RE) : RE := .cat r (.rep r)

def reOpt (r : RE) : RE := .alt r .eps

def wsRE : RE := .sym isJsWs

def digitRE : RE := .sym Char.isDigit

def upperRE : RE := .sym fun c => 'A' ≤ c && c ≤ 'Z'

def lowerRE : RE := .sym fun c => 'a' ≤ c && c ≤ 'z'

def isAsciiAlpha (c : Char) : Bool :=
  ('a' ≤ c && c ≤ 'z') || ('A' ≤ c && c ≤ 'Z')

end JsRegex

/-! ## TextGenerator (src/generation.js) -/

namespace TextGenerator

open JsRegex

/-- `[A-Z][a-z]+(?:\s+[A-Z][a-z]+)*` — honorific-style capitalised words. -/
def capWordsRE : RE :=
  .cat upperRE (.cat (rePlus lowerRE)
    (.rep (.cat (rePlus wsRE) (.cat upperRE (rePlus lowerRE)))))

/-- The three patterns of `extractNames`. -/
def namePatterns : List RE :=
  [ -- /(?:NAME|name)\s*:?\s*([A-Z][a-z]+(?:\s+[A-Z][a-z]+)*)/g
    .cat (.alt (reStr "NAME") (reStr "name"))
      (.cat (.rep wsRE) (.cat (reOpt (reChr ':'))
        (.cat (.rep wsRE) (.grp 1 capWordsRE)))),
    -- /(?:PATIENT NAME|Patient Name)\s+([^\n]+)/g
    .cat (.alt (reStr "PATIENT NAME") (reStr "Patient Name"))
      (.cat (rePlus wsRE) (.grp 1 (rePlus (.sym fun c => c != '\n')))),
    -- /(?:Dr\.|Doctor|Mr\.|Ms\.|Mrs\.)\s+([A-Z][a-z]+(?:\s+[A-Z][a-z]+)*)/g
    .cat (reAlts [reStr "Dr.", reStr "Doctor", reStr "Mr.", reStr "Ms.", reStr "Mrs."])
      (.cat (rePlus wsRE) (.grp 1 capWordsRE)) ]

/-- `\d{1,2}` (greedy). -/
def d12RE : RE := .cat digitRE (reOpt digitRE)

def d2RE : RE := .cat digitRE digitRE

def d4RE : RE := .cat d2RE d2RE

/-- The four patterns of `extractDates`. -/
def datePatterns : List RE :=
  [ -- /\d{1,2}\/\d{1,2}\/\d{4}/g
    .cat d12RE (.cat (reChr '/') (.cat d12RE (.cat (reChr '/') d4RE))),
    -- /\d{4}-\d{2}-\d{2}/g
    .cat d4RE (.cat (reChr '-') (.cat d2RE (.cat (reChr '-') d2RE))),
    -- /(?:January|February|...|December)\s+\d{1,2},?\s+\d{4}/g
    .cat (reAlts [reStr "January", reStr "February", reStr "March", reStr "April",
        reStr "May", reStr "June", reStr "July", reStr "August", reStr "September",
        reStr "October", reStr "November", reStr "December"])
      (.cat (rePlus wsRE) (.cat d12RE (.cat (reOpt (reChr ','))
        (.cat (rePlus wsRE) d4RE)))),
    -- /\d{1,2}\s+(?:Jan|Feb|...|Dec)\s+\d{4}/g
    .cat d12RE (.cat (rePlus wsRE)
      (.cat (reAlts [reStr "Jan", reStr "Feb", reStr "Mar", reStr "Apr", reStr "May",
          reStr "Jun", reStr "Jul", reStr "Aug", reStr "Sep", reStr "Oct", reStr "Nov",
          reStr "Dec"])
        (.cat (rePlus wsRE) d4RE))) ]

/-- `/([a-zA-Z\s]+)[\s:]*(\d+(?:\.\d+)?)\s*([a-zA-Z/%]*)/g` — the single
pattern of `extractNumbers`. -/
def numberPattern : RE :=
  .cat (.grp 1 (rePlus (.sym fun c => isAsciiAlpha c || isJsWs c)))
    (.cat (.rep (.sym fun c => isJsWs c || c == ':'))
      (.cat (.grp 2 (.cat (rePlus digitRE) (reOpt (.cat (reChr '.') (rePlus digitRE)))))
        (.cat (.rep wsRE)
          (.grp 3 (.rep (.sym fun c => isAsciiAlpha c || c == '/' || c == '%'))))))

/-- The four patterns of `extractLocations`. -/
def locationPatterns : List RE :=
  [ -- /(?:ADDRESS|Address)\s*:?\s*([^\n]+)/g
    .cat (.alt (reStr "ADDRESS") (reStr "Address"))
      (.cat (.rep wsRE) (.cat (reOpt (reChr ':'))
        (.cat (.rep wsRE) (.grp 1 (rePlus (.sym fun c => c != '\n')))))),
    -- /(?:LOCATION|Location)\s*:?\s*([^\n]+)/g
    .cat (.alt (reStr "LOCATION") (reStr "Location"))
      (.cat (.rep wsRE) (.cat (reOpt (reChr ':'))
        (.cat (.rep wsRE) (.grp 1 (rePlus (.sym fun c => c != '\n')))))),
    -- /\d+\s+[A-Z][a-zA-Z\s]+(?:Street|St|Avenue|Ave|Road|Rd|Boulevard|Blvd)/g
    .cat (rePlus digitRE) (.cat (rePlus wsRE) (.cat upperRE
      (.cat (rePlus (.sym fun c => isAsciiAlpha c || isJsWs c))
        (reAlts [reStr "Street", reStr "St", reStr "Avenue", reStr "Ave",
          reStr "Road", reStr "Rd", reStr "Boulevard", reStr "Blvd"])))),
    -- /[A-Z][a-zA-Z\s]+,\s*[A-Z]{2}\s*\d{5}/g  (City, State ZIP)
    .cat upperRE (.cat (rePlus (.sym fun c => isAsciiAlpha c || isJsWs c))
      (.cat (reChr ',') (.cat (.rep wsRE) (.cat upperRE (.cat upperRE
        (.cat (.rep wsRE) (.cat d4RE digitRE))))))) ]

/-- `TextGenerator.extractNames`: run each pattern globally, collect the
trimmed first capture, deduplicating. -/
def extractNames (context : List Char) : List (List Char) :=
  namePatterns.foldl (fun names pat =>
    (allMatches pat context).foldl (fun names m =>
      let name := jsTrim ((getCap m.caps 1).getD [])
      if name ≠ [] ∧ ¬ names.contains name then names ++ [name] else names)
      names) []

/-- `TextGenerator.extractDates`: collect whole matches, deduplicating. -/
def extractDates (context : List Char) : List (List Char) :=
  datePatterns.foldl (fun dates pat =>
    (allMatches pat context).foldl (fun dates m =>
      if ¬ dates.contains m.matched then dates ++ [m.matched] else dates)
      dates) []

/-- `TextGenerator.extractNumbers`: label/value/unit triples from the
number pattern, keeping labels of reasonable length, first ten only. -/
def extractNumbers (context : List Char) : List (List Char) :=
  ((allMatches numberPattern context).foldl (fun numbers m =>
    let label := jsTrim ((getCap m.caps 1).getD [])
    let value := (getCap m.caps 2).getD []
    let unit := (getCap m.caps 3).getD []
    if label.length > 2 ∧ label.length < 50 then
      numbers ++ [label ++ ": ".data ++ value ++
        (if unit ≠ [] then " ".data ++ unit else [])]
    else numbers) []).take 10

/-- `TextGenerator.extractLocations`: `match[1] || match[0]`, trimmed and
deduplicated. -/
def extractLocations (context : List Char) : List (List Char) :=
  locationPatterns.foldl (fun locations pat =>
    (allMatches pat context).foldl (fun locations m =>
      let location :=
        match getCap m.caps 1 with
        | some v => if v ≠ [] then v else m.matched
        | none => m.matched
      if location ≠ [] ∧ ¬ locations.contains (jsTrim location) then
        locations ++ [jsTrim location]
      else locations)
      locations) []

/-- `TextGenerator.extractRelevantInfo`: keyword-typed extraction,
category by category. -/
def extractRelevantInfo (question context : List Char) : List (List Char) :=
  let questionLower := jsToLower question
  let info : List (List Char) := []
  let info :=
    if jsIncludes questionLower "name".data || jsIncludes questionLower "who".data then
      let names := extractNames context
      if names.length > 0 then
        info ++ ["Names mentioned: ".data ++ jsJoin ", ".data names]
      else info
    else info
  let info :=
    if jsIncludes questionLower "date".data || jsIncludes questionLower "when".data then
      let dates := extractDates context
      if dates.length > 0 then
        info ++ ["Dates mentioned: ".data ++ jsJoin ", ".data dates]
      else info
    else info
  let info :=
    if jsIncludes questionLower "number".data || jsIncludes questionLower "amount".data
        || jsIncludes questionLower "value".data then
      let numbers := extractNumbers context
      if numbers.length > 0 then
        info ++ ["Key numbers: ".data ++ jsJoin ", ".data numbers]
      else info
    else info
  let info :=
    if jsIncludes questionLower "location".data || jsIncludes questionLower "where".data
        || jsIncludes questionLower "address".data then
      let locations := extractLocations context
      if locations.length > 0 then
        info ++ ["Locations mentioned: ".data ++ jsJoin ", ".data locations]
      else info
    else info
  info

def isSentenceStop (c : Char) : Bool := c == '.' || c == '!' || c == '?'

/-- `context.split(/[.!?]+/)`: split at maximal runs of sentence stops,
keeping empty pieces at the edges, as JavaScript does. -/
def splitSentences : List Char → List (List Char)
  | [] => [[]]
  | c :: rest =>
    if isSentenceStop c then
      [] :: splitSentences (rest.dropWhile isSentenceStop)
    else
      match splitSentences rest with
      | [] => [[c]]
      | piece :: pieces => (c :: piece) :: pieces
termination_by l => l.length
decreasing_by
  · simp only [List.length_cons]
    exact Nat.lt_succ_of_le (List.dropWhile_sublist _).length_le
  · simp

/-- The fixed apology returned when nothing at all matches. -/
def fixedApology : List Char :=
  ("I found relevant information in the documents, but I\x27m having trouble " ++
   "generating a specific answer right now. Please try rephrasing your question " ++
   "or asking about specific topics mentioned in the document.").data

/-- `TextGenerator.createFallbackAnswer`: typed extraction, then
keyword-overlap sentence selection, then the fixed apology. -/
def createFallbackAnswer (question context : List Char) : List Char :=
  let extractedInfo := extractRelevantInfo question context
  if extractedInfo.length > 0 then
    "Based on the document content:\n\n".data ++
      (extractedInfo.enum.map fun p =>
        (toString (p.1 + 1)).data ++ ". ".data ++ p.2 ++ "\n".data).flatten
  else
    let questionWords := (jsSplitChar ' ' (jsToLower question)).filter fun w => w.length > 3
    let sentences := (splitSentences context).filter fun s => (jsTrim s).length > 10
    let relevantSentences := sentences.filter fun sentence =>
      questionWords.any fun word => jsIncludes (jsToLower sentence) word
    if relevantSentences.length > 0 then
      jsJoin ". ".data ((relevantSentences.take 3).map jsTrim) ++ ".".data
    else
      fixedApology

/-- The generation prompt template of `TextGenerator.createPrompt`. -/
def createPrompt (question context : List Char) : List Char :=
  ("Based on the following information, please provide a detailed and " ++
   "well-structured answer.\n\nCONTEXT INFORMATION:\n").data ++ context ++
  "\n\nQUESTION: ".data ++ question ++
  ("\n\nINSTRUCTIONS: Please provide a comprehensive answer that:\n" ++
   "1. Directly answers the question based on the context\n" ++
   "2. Includes specific details and data from the documents\n" ++
   "3. Is well-organized with clear sections if needed\n" ++
   "4. Cites relevant information from the source material\n" ++
   "5. Is accurate and factual based only on the provided context\n\nANSWER:").data

/-- `answer.replace(label, '')` for a string pattern: replace the first
occurrence, leave the string unchanged when absent. -/
def jsReplaceFirst (hay needle repl : List Char) : List Char :=
  if needle.isPrefixOf hay then repl ++ hay.drop needle.length
  else
    match hay with
    | [] => []
    | c :: rest => c :: jsReplaceFirst rest needle repl

/-- One `.replace(/^\s*LABEL\s*/i, '')` step of `cleanAnswer`. -/
def stripLabelCI (label : List Char) (s : List Char) : List Char :=
  let t := jsTrimStart s
  if jsToLower (t.take label.length) == jsToLower label then
    jsTrimStart (t.drop label.length)
  else s

/-- The forward index of the last newline of `run`, if any. -/
def lastNewlineIdx (run : List Char) : Option Nat :=
  match run.reverse.findIdx? (fun c => c == '\n') with
  | some r => some (run.length - 1 - r)
  | none => none

/-- `.replace(/\n\s*\n/g, '\n')`: each newline followed by a whitespace
run that contains another newline collapses, with scanning resuming after
the match, exactly as a global JavaScript replace does. -/
def collapseBlankLines : List Char → List Char
  | [] => []
  | c :: rest =>
    if c == '\n' then
      match lastNewlineIdx (rest.takeWhile isJsWs) with
      | some j => '\n' :: collapseBlankLines (rest.drop (j + 1))
      | none => '\n' :: collapseBlankLines rest
    else c :: collapseBlankLines rest
termination_by l => l.length
decreasing_by
  · simp only [List.length_cons, List.length_drop]
    omega
  · simp
  · simp

/-- `TextGenerator.cleanAnswer`: strip boilerplate answer prefixes,
collapse blank lines, trim. -/
def cleanAnswer (answer : List Char) : List Char :=
  jsTrim (collapseBlankLines
    (stripLabelCI "ANSWER:".data
      (stripLabelCI "A:".data
        (stripLabelCI "Answer:".data answer))))

end TextGenerator

/-! ## Gateways and RAGSystem (src/embedding.js, src/retrieval.js)

The Hugging Face inference calls are external collaborators; they are
modelled by oracle functions giving the outcome (`Except`) of each call,
and the orchestrator records every gateway call it issues. -/

/-- A record of one outbound gateway call. -/
inductive GwCall where
  | embed (text : List Char)
  | generate (prompt : List Char)
deriving DecidableEq

/-- The outcome oracles for the two gateways: `embedFn` is
`EmbeddingService.generateEmbedding` (throws on failure), `genFn` is the
`hf.textGeneration` call inside `TextGenerator.generateAnswer`. -/
structure Gateways where
  embedFn : List Char → Except String (List ℝ)
  genFn : List Char → Except String (List Char)

/-- `EmbeddingService.generateEmbeddings`: one embedding per chunk via
`Promise.all`; any rejection rejects the whole batch. -/
def generateEmbeddings (gw : Gateways) (texts : List (List Char)) :
    Except String (List (List ℝ)) :=
  texts.mapM gw.embedFn

/-- `TextGenerator.generateAnswer`: ask the generation gateway; on success
clean the response (prompt echo removal, boilerplate stripping), on any
throw fall back to `createFallbackAnswer`. Also reports the gateway calls
made. -/
def generateAnswer (gw : Gateways) (question context : List Char) :
    List Char × List GwCall :=
  let prompt := TextGenerator.createPrompt question context
  match gw.genFn prompt with
  | .ok generated =>
    (TextGenerator.cleanAnswer (jsTrim (TextGenerator.jsReplaceFirst generated prompt [])),
     [.generate prompt])
  | .error _ => (TextGenerator.createFallbackAnswer question context, [.generate prompt])

namespace RAGSystem

/-- `RAGSystem.createContext`: numbered document sections joined with a
newline (each section already ends in one, so sections are separated by a
blank line). -/
def createContext (searchResults : List SimpleVectorStore.SearchResult) : List Char :=
  List.intercalate "\n".data
    (searchResults.enum.map fun p =>
      "=== Document Section ".data ++ (toString (p.1 + 1)).data ++ " ===\n".data ++
        p.2.document ++ "\n".data)

/-- The result object of `RAGSystem.askQuestion`, restricted to the fields
the specification talks about (the `relevantDocuments` display previews,
which involve JavaScript float formatting, are not modelled). -/
structure AskResult where
  success : Bool
  error : Option String
  answer : Option (List Char)
  context : Option (List Char)

/-- `RAGSystem.askQuestion`: empty-store fast path, question embedding,
search, context assembly, generation (with internal fallback); any
exception from embedding or search is caught and reported as a failure.
Returns the result together with the list of gateway calls made. -/
noncomputable def askQuestion (gw : Gateways) (store : SimpleVectorStore)
    (question : List Char) (topK : Nat) : AskResult × List GwCall :=
  if store.getDocumentCount = 0 then
    ({ success := false
       error := some "No documents in the system. Please add documents first"
       answer := none, context := none }, [])
  else
    match gw.embedFn question with
    | .error e =>
      ({ success := false, error := some e, answer := none, context := none },
       [.embed question])
    | .ok questionEmbedding =>
      match store.search questionEmbedding topK with
      | .error e =>
        ({ success := false, error := some e, answer := none, context := none },
         [.embed question])
      | .ok searchResults =>
        if searchResults.length = 0 then
          ({ success := false
             error := some "No relevant documents found for the question"
             answer := none, context := none }, [.embed question])
        else
          let context := createContext searchResults
          let ans := generateAnswer gw question context
          ({ success := true, error := none
             answer := some ans.1, context := some context },
           .embed question :: ans.2)

/-- The result object of `RAGSystem.addDocument`, restricted to the fields
the specification talks about. -/
structure AddResult where
  success : Bool
  error : Option String
  chunksAdded : Option Nat
  totalDocuments : Option Nat

/-- The chunk list produced by `DocumentProcessor.processDocument`
(text extraction is an external collaborator, so the processing outcome is
an input here). -/
structure ProcessedDoc where
  chunks : List (List Char)

/-- `RAGSystem.addDocument`: process the document, embed every chunk
(gathered before any insertion), then insert each (chunk, embedding) pair
with positional metadata; any throw is caught and reported as failure.
`timestamp` stands in for `new Date().toISOString()`. -/
def addDocument (gw : Gateways) (processed : Except String ProcessedDoc)
    (filePath fileType : List Char) (timestamp : List Char)
    (store : SimpleVectorStore) : AddResult × SimpleVectorStore :=
  match processed with
  | .error e => ({ success := false, error := some e
                   chunksAdded := none, totalDocuments := none }, store)
  | .ok doc =>
    match generateEmbeddings gw doc.chunks with
    | .error e => ({ success := false, error := some e
                     chunksAdded := none, totalDocuments := none }, store)
    | .ok embeddings =>
      let store' := ((doc.chunks.zip embeddings).enum).foldl
        (fun st p =>
          st.addDocument p.2.1 p.2.2
            { sourceFile := filePath, fileType := fileType
              chunkIndex := p.1, totalChunks := doc.chunks.length }
            timestamp)
        store
      ({ success := true, error := none
         chunksAdded := some doc.chunks.length
         totalDocuments := some store'.getDocumentCount }, store')

end RAGSystem

/-! ## Concrete objects used by the witness theorems -/

def demoMeta : DocMeta :=
  { sourceFile := "demo.txt".data, fileType := "txt".data
    chunkIndex := 0, totalChunks := 1 }

/-- A store holding one three-character document with the one-dimensional
zero embedding. -/
def demoStore : SimpleVectorStore :=
  SimpleVectorStore.emptyStore.addDocument "abc".data [(0 : ℝ)] demoMeta "ts".data

/-- Gateways whose calls all succeed. -/
def demoGwOk : Gateways :=
  { embedFn := fun _ => .ok [(0 : ℝ)], genFn := fun _ => .ok "fine".data }

/-- Gateways whose generation call throws. -/
def demoGwGenFail : Gateways :=
  { embedFn := fun _ => .ok [(0 : ℝ)], genFn := fun _ => .error "model unavailable" }

/-- Gateways whose embedding call throws. -/
def demoGwEmbedFail : Gateways :=
  { embedFn := fun _ => .error "rate limited", genFn := fun _ => .ok "fine".data }

/-! ## Claim C10: store invariant -/

/-- C10: every `SimpleVectorStore` operation preserves the invariant that
the `documents`, `embeddings` and `metadata` arrays have equal length and
that the metadata record at position `i` carries id `i`; consequently
`getDocumentCount()` equals the number of stored entries and every entry's
id equals its insertion position. (`search`, `getAllDocuments` and
`getDocumentCount` do not modify the store — they are pure functions of it
in this embedding — so `addDocument` and `clear` are the operations with
proof content.) -/
theorem c10_store_invariant (s : SimpleVectorStore) (text : List Char)
    (embedding : List ℝ) (meta : DocMeta) (ts : List Char)
    (h : SimpleVectorStore.StoreWF s) :
    SimpleVectorStore.StoreWF (s.addDocument text embedding meta ts) ∧
    SimpleVectorStore.StoreWF s.clear ∧
    s.getDocumentCount = s.metadata.length ∧
    (∀ i, i < s.metadata.length → (s.metadata.getD i default).id = i) := by
  obtain ⟨h1, h2, h3⟩ := h
  refine ⟨⟨?_, ?_, ?_⟩,
    (by decide : SimpleVectorStore.StoreWF SimpleVectorStore.emptyStore), h2, h3⟩
  · simp [SimpleVectorStore.addDocument, h1]
  · simp [SimpleVectorStore.addDocument, h2]
  · intro i hi
    simp only [SimpleVectorStore.addDocument, List.length_append,
      List.length_cons, List.length_nil] at hi
    rcases Nat.lt_or_ge i s.metadata.length with hlt | hge
    · rw [SimpleVectorStore.addDocument]
      simp only [List.getD, List.get?_append hlt]
      exact h3 i hlt
    · have hieq : i = s.metadata.length := by omega
      subst hieq
      rw [SimpleVectorStore.addDocument]
      simp only [List.getD, List.get?_append_right (Nat.le_refl _)]
      simp [h2]

/-- Witness for C10 at a concrete well-formed store. -/
theorem c10_store_invariant_witness :
    SimpleVectorStore.StoreWF
      (demoStore.addDocument "xyz".data [(0 : ℝ)] demoMeta "ts2".data) ∧
    SimpleVectorStore.StoreWF demoStore.clear ∧
    demoStore.getDocumentCount = demoStore.metadata.length ∧
    (∀ i, i < demoStore.metadata.length →
      (demoStore.metadata.getD i default).id = i) :=
  c10_store_invariant demoStore "xyz".data [(0 : ℝ)] demoMeta "ts2".data (by decide)

/-! ## Claim C5: empty index fails fast with no gateway calls -/

/-- C5: with zero stored documents, `askQuestion` fails fast with the
"No documents" error, a `null` answer, and no gateway call of any kind. -/
theorem c5_empty_index_fast_fail (gw : Gateways) (store : SimpleVectorStore)
    (question : List Char) (topK : Nat) (h : store.getDocumentCount = 0) :
    RAGSystem.askQuestion gw store question topK =
      ({ success := false
         error := some "No documents in the system. Please add documents first"
         answer := none, context := none }, []) := by
  unfold RAGSystem.askQuestion
  rw [if_pos h]

/-- Witness for C5 at the empty store. -/
theorem c5_empty_index_fast_fail_witness :
    RAGSystem.askQuestion demoGwOk SimpleVectorStore.emptyStore "test".data 3 =
      ({ success := false
         error := some "No documents in the system. Please add documents first"
         answer := none, context := none }, []) :=
  c5_empty_index_fast_fail demoGwOk SimpleVectorStore.emptyStore "test".data 3 rfl

/-! ## Claim C8: context assembly format -/

/-- Modelled from the spec: the context block format
`=== Document Section <N> ===\n<chunk text>\n`. -/
def specSectionBlock (n : Nat) (doc : List Char) : List Char :=
  "=== Document Section ".data ++ (toString n).data ++ " ===\n".data ++
    doc ++ "\n".data

/-- Modelled from the spec: the blocks for the ranked chunk texts,
numbered from `n` upward, consecutive sections separated by a blank line
(each block ends in a newline, and one more newline stands between
blocks). -/
def specContextFrom (n : Nat) : List (List Char) → List Char
  | [] => []
  | [d] => specSectionBlock n d
  | d :: d' :: rest =>
    specSectionBlock n d ++ "\n".data ++ specContextFrom (n + 1) (d' :: rest)

lemma intercalate_cons_cons (sep a b : List Char) (t : List (List Char)) :
    List.intercalate sep (a :: b :: t) =
      a ++ sep ++ List.intercalate sep (b :: t) := by
  simp [List.intercalate, List.intersperse, List.append_assoc]

lemma createContext_enumFrom (k : Nat) :
    ∀ rs : List SimpleVectorStore.SearchResult, rs ≠ [] →
      List.intercalate "\n".data
        ((rs.enumFrom k).map fun p =>
          "=== Document Section ".data ++ (toString (p.1 + 1)).data ++
            " ===\n".data ++ p.2.document ++ "\n".data) =
        specContextFrom (k + 1) (rs.map fun r => r.document)
  | [], h => absurd rfl h
  | [r], _ => by
    simp [List.enumFrom, List.intercalate, List.intersperse,
      specContextFrom, specSectionBlock]
  | r :: r' :: rest, _ => by
    have ih := createContext_enumFrom (k + 1) (r' :: rest) (by simp)
    simp only [List.enumFrom, List.map_cons] at ih ⊢
    rw [intercalate_cons_cons]
    rw [ih]
    simp [specContextFrom, specSectionBlock, List.append_assoc]

/-- C8: for a non-empty result list, the assembled context is exactly the
`=== Document Section N ===` blocks of the ranked chunk texts, numbered
from 1 in order, joined so that consecutive sections are separated by a
blank line. -/
theorem c8_context_format (rs : List SimpleVectorStore.SearchResult)
    (h : rs ≠ []) :
    RAGSystem.createContext rs = specContextFrom 1 (rs.map fun r => r.document) := by
  unfold RAGSystem.createContext
  rw [List.enum_eq_enumFrom]
  exact createContext_enumFrom 0 rs h

/-- Witness for C8 on a concrete two-element result list. -/
theorem c8_context_format_witness :
    RAGSystem.createContext
        [{ index := 0, similarity := (0 : ℝ), document := "alpha".data
           metadata := default },
         { index := 1, similarity := (0 : ℝ), document := "beta".data
           metadata := default }] =
      specContextFrom 1 ["alpha".data, "beta".data] := by
  have := c8_context_format
    [{ index := 0, similarity := (0 : ℝ), document := "alpha".data
       metadata := default },
     { index := 1, similarity := (0 : ℝ), document := "beta".data
       metadata := default }] (by simp)
  simpa using this

/-! ## Claim C4: cosine similarity range -/

lemma list_sum_sq_nonneg (l : List ℝ) : 0 ≤ (l.map (fun x => x ^ 2)).sum := by
  apply List.sum_nonneg
  intro x hx
  obtain ⟨y, _, rfl⟩ := List.mem_map.1 hx
  exact sq_nonneg y

/-- Cauchy-Schwarz for the componentwise products of two real lists. -/
lemma list_inner_sq_le :
    ∀ (a b : List ℝ),
      ((List.zipWith (· * ·) a b).sum) ^ 2 ≤
        (a.map (fun x => x ^ 2)).sum * (b.map (fun x => x ^ 2)).sum
  | [], _ => by simp
  | _ :: _, [] => by simp
  | a :: as, b :: bs => by
    have ih := list_inner_sq_le as bs
    have hSA := list_sum_sq_nonneg as
    have hSB := list_sum_sq_nonneg bs
    simp only [List.zipWith_cons_cons, List.map_cons, List.sum_cons]
    set d := (List.zipWith (· * ·) as bs).sum with hd
    set SA := (as.map (fun x => x ^ 2)).sum with hSA'
    set SB := (bs.map (fun x => x ^ 2)).sum with hSB'
    rcases eq_or_lt_of_le hSB with hSB0 | hSBpos
    · have hd0 : d = 0 := by nlinarith [ih, sq_nonneg d]
      rw [hd0, ← hSB0]
      nlinarith [mul_nonneg hSA (sq_nonneg b)]
    · nlinarith [sq_nonneg (a * SB - b * d),
        mul_nonneg (sq_nonneg b) (sub_nonneg.2 ih),
        mul_nonneg hSBpos.le (sub_nonneg.2 ih), hSBpos]

/-- C4: on equal-length vectors `cosineSimilarity` never throws, its value
lies in `[-1, 1]`, and it is exactly `0` whenever either vector's norm is
zero. -/
theorem c4_cosine_similarity_range (a b : List ℝ) (h : a.length = b.length) :
    ∃ v, SimpleVectorStore.cosineSimilarity a b = .ok v ∧
      -1 ≤ v ∧ v ≤ 1 ∧
      ((Real.sqrt ((a.map (fun x => x ^ 2)).sum) = 0 ∨
        Real.sqrt ((b.map (fun x => x ^ 2)).sum) = 0) → v = 0) := by
  unfold SimpleVectorStore.cosineSimilarity
  rw [if_neg (by omega)]
  set dotProduct := (List.zipWith (· * ·) a b).sum with hdot
  set normA := Real.sqrt ((a.map (fun x => x ^ 2)).sum) with hnA
  set normB := Real.sqrt ((b.map (fun x => x ^ 2)).sum) with hnB
  by_cases hz : normA = 0 ∨ normB = 0
  · rw [if_pos hz]
    exact ⟨0, rfl, by norm_num, by norm_num, fun _ => rfl⟩
  · rw [if_neg hz]
    push_neg at hz
    have hA0 : 0 < normA := lt_of_le_of_ne (Real.sqrt_nonneg _) (Ne.symm hz.1)
    have hB0 : 0 < normB := lt_of_le_of_ne (Real.sqrt_nonneg _) (Ne.symm hz.2)
    have habs : |dotProduct| ≤ normA * normB := by
      have h1 : dotProduct ^ 2 ≤
          (a.map (fun x => x ^ 2)).sum * (b.map (fun x => x ^ 2)).sum :=
        list_inner_sq_le a b
      have h2 : |dotProduct| = Real.sqrt (dotProduct ^ 2) :=
        (Real.sqrt_sq_eq_abs dotProduct).symm
      rw [h2, hnA, hnB, ← Real.sqrt_mul (list_sum_sq_nonneg a)]
      exact Real.sqrt_le_sqrt h1
    refine ⟨dotProduct / (normA * normB), rfl, ?_, ?_, fun hcontra => ?_⟩
    · rw [le_div_iff (by positivity)]
      nlinarith [(abs_le.1 habs).1]
    · rw [div_le_one (by positivity)]
      exact (abs_le.1 habs).2
    · exact absurd hcontra (by push_neg; exact hz)

/-- Witness for C4 at the pair of one-dimensional zero vectors. -/
theorem c4_cosine_similarity_range_witness :
    ∃ v, SimpleVectorStore.cosineSimilarity [(0 : ℝ)] [(0 : ℝ)] = .ok v ∧
      -1 ≤ v ∧ v ≤ 1 ∧
      ((Real.sqrt ((([(0 : ℝ)]).map (fun x => x ^ 2)).sum) = 0 ∨
        Real.sqrt ((([(0 : ℝ)]).map (fun x => x ^ 2)).sum) = 0) → v = 0) :=
  c4_cosine_similarity_range [(0 : ℝ)] [(0 : ℝ)] rfl

/-! ## Claims C2 and C3: search -/

lemma mapM_ok_of_forall_ok {α β : Type} (f : α → Except String β) :
    ∀ l : List α, (∀ x ∈ l, ∃ y, f x = .ok y) →
      ∃ ys, l.mapM f = .ok ys ∧ ys.length = l.length
  | [], _ => ⟨[], rfl, rfl⟩
  | x :: l, h => by
    obtain ⟨y, hy⟩ := h x (List.mem_cons_self x l)
    obtain ⟨ys, hys, hlen⟩ :=
      mapM_ok_of_forall_ok f l (fun z hz => h z (List.mem_cons_of_mem x hz))
    refine ⟨y :: ys, ?_, by simp [hlen]⟩
    rw [List.mapM_cons, hy, hys]
    rfl

lemma mapM_error_of_mem {α β : Type} (f : α → Except String β) (msg : String) :
    ∀ l : List α, (∀ x ∈ l, (∃ y, f x = .ok y) ∨ f x = .error msg) →
      (∃ x ∈ l, f x = .error msg) → l.mapM f = .error msg
  | [], _, hex => by simp at hex
  | x :: l, hall, hex => by
    rcases hall x (List.mem_cons_self x l) with ⟨y, hy⟩ | herr
    · obtain ⟨z, hz, hze⟩ := hex
      have hzl : z ∈ l := by
        rcases List.mem_cons.1 hz with rfl | hzl
        · rw [hy] at hze; exact absurd hze (by simp)
        · exact hzl
      have ih := mapM_error_of_mem f msg l
        (fun w hw => hall w (List.mem_cons_of_mem x hw)) ⟨z, hzl, hze⟩
      rw [List.mapM_cons, hy, ih]
      rfl
    · rw [List.mapM_cons, herr]
      rfl

lemma cosineSimilarity_ok_of_dim {q emb : List ℝ} (h : emb.length = q.length) :
    ∃ v, SimpleVectorStore.cosineSimilarity q emb = .ok v := by
  unfold SimpleVectorStore.cosineSimilarity
  rw [if_neg (by omega)]
  by_cases hz : Real.sqrt ((q.map (fun x => x ^ 2)).sum) = 0 ∨
      Real.sqrt ((emb.map (fun x => x ^ 2)).sum) = 0
  · exact ⟨0, by rw [if_pos hz]⟩
  · exact ⟨_, by rw [if_neg hz]⟩

lemma cosineSimilarity_ok_or_error (q emb : List ℝ) :
    (∃ v, SimpleVectorStore.cosineSimilarity q emb = .ok v) ∨
      SimpleVectorStore.cosineSimilarity q emb =
        .error "Vectors must be of the same length" := by
  unfold SimpleVectorStore.cosineSimilarity
  by_cases hlen : q.length ≠ emb.length
  · right; rw [if_pos hlen]
  · left
    rw [if_neg hlen]
    by_cases hz : Real.sqrt ((q.map (fun x => x ^ 2)).sum) = 0 ∨
        Real.sqrt ((emb.map (fun x => x ^ 2)).sum) = 0
    · exact ⟨0, by rw [if_pos hz]⟩
    · exact ⟨_, by rw [if_neg hz]⟩

lemma cosineSimilarity_error_of_mismatch {q emb : List ℝ}
    (h : emb.length ≠ q.length) :
    SimpleVectorStore.cosineSimilarity q emb =
      .error "Vectors must be of the same length" := by
  unfold SimpleVectorStore.cosineSimilarity
  rw [if_pos (by omega)]

lemma simLE_trans (x y z : SimpleVectorStore.SearchResult)
    (h1 : SimpleVectorStore.simLE x y) (h2 : SimpleVectorStore.simLE y z) :
    SimpleVectorStore.simLE x z := by
  simp only [SimpleVectorStore.simLE, decide_eq_true_eq] at *
  exact le_trans h2 h1

lemma simLE_total (x y : SimpleVectorStore.SearchResult) :
    SimpleVectorStore.simLE x y || SimpleVectorStore.simLE y x := by
  simp only [SimpleVectorStore.simLE, Bool.or_eq_true, decide_eq_true_eq]
  exact le_total y.similarity x.similarity

/-- C2: with a query embedding matching every stored embedding's dimension,
`search` succeeds with exactly `min topK count()` results in non-increasing
similarity order; with `topK ≥ count()` the results are all scored entries;
and an empty store yields the empty sequence. -/
theorem c2_search_ordering (s : SimpleVectorStore) (q : List ℝ) (topK : Nat)
    (hWF : SimpleVectorStore.StoreWF s)
    (hdim : ∀ emb ∈ s.embeddings, emb.length = q.length) :
    ∃ res, s.search q topK = .ok res ∧
      res.length = min topK s.getDocumentCount ∧
      res.Pairwise (fun a b => b.similarity ≤ a.similarity) ∧
      (s.getDocumentCount ≤ topK →
        ∃ sims, s.searchScored q = .ok sims ∧ res.Perm sims) ∧
      (s.getDocumentCount = 0 → res = []) := by
  obtain ⟨h1, h2, -⟩ := hWF
  unfold SimpleVectorStore.search
  by_cases hemp : s.embeddings.length = 0
  · rw [if_pos hemp]
    refine ⟨[], rfl, ?_, List.Pairwise.nil, fun _ => ⟨[], ?_, List.Perm.refl []⟩,
      fun _ => rfl⟩
    · simp [SimpleVectorStore.getDocumentCount, h1, hemp]
    · unfold SimpleVectorStore.searchScored
      rw [List.length_eq_zero.1 hemp]
      rfl
  · rw [if_neg hemp]
    obtain ⟨sims, hsims, hlen⟩ :=
      mapM_ok_of_forall_ok
        (fun p => (SimpleVectorStore.cosineSimilarity q p.2).map fun sim =>
          { index := p.1
            similarity := sim
            document := s.documents.getD p.1 []
            metadata := s.metadata.getD p.1 default : SimpleVectorStore.SearchResult })
        s.embeddings.enum
        (by
          intro p hp
          have hsnd : p.2 ∈ s.embeddings := by
            have : p.2 ∈ List.map Prod.snd s.embeddings.enum :=
              List.mem_map_of_mem Prod.snd hp
            rwa [List.enum_eq_enumFrom, List.enumFrom_map_snd] at this
          obtain ⟨v, hv⟩ := cosineSimilarity_ok_of_dim (hdim p.2 hsnd)
          exact ⟨_, by simp only []; rw [hv]; rfl⟩)
    rw [show s.searchScored q = .ok sims from hsims]
    have hcount : s.getDocumentCount = s.embeddings.length := h1
    have hsimslen : sims.length = s.embeddings.length := by
      rw [hlen, List.enum_length]
    have hsorted :
        ((sims.mergeSort SimpleVectorStore.simLE).take topK).Pairwise
          (fun a b => b.similarity ≤ a.similarity) := by
      have hp := @List.sorted_mergeSort _ SimpleVectorStore.simLE
        simLE_trans simLE_total sims
      have hp' := hp.imp (fun hab => by
        simpa [SimpleVectorStore.simLE] using hab)
      exact hp'.sublist (List.take_sublist _ _)
    refine ⟨(sims.mergeSort SimpleVectorStore.simLE).take topK, rfl, ?_, hsorted,
      ?_, ?_⟩
    · simp [List.length_take, List.length_mergeSort, hsimslen, hcount]
    · intro hk
      refine ⟨sims, rfl, ?_⟩
      have : (sims.mergeSort SimpleVectorStore.simLE).length ≤ topK := by
        rw [List.length_mergeSort, hsimslen, ← hcount]
        exact hk
      rw [List.take_of_length_le this]
      exact List.mergeSort_perm sims _
    · intro h0
      exact absurd (by omega : s.embeddings.length = 0) hemp

/-- Witness for C2 at a one-entry store with matching dimensions. -/
theorem c2_search_ordering_witness :
    ∃ res, demoStore.search [(0 : ℝ)] 3 = .ok res ∧
      res.length = min 3 demoStore.getDocumentCount ∧
      res.Pairwise (fun a b => b.similarity ≤ a.similarity) ∧
      (demoStore.getDocumentCount ≤ 3 →
        ∃ sims, demoStore.searchScored [(0 : ℝ)] = .ok sims ∧ res.Perm sims) ∧
      (demoStore.getDocumentCount = 0 → res = []) := by
  apply c2_search_ordering demoStore [(0 : ℝ)] 3 (by decide)
  intro emb hemb
  simp only [demoStore, SimpleVectorStore.emptyStore,
    SimpleVectorStore.addDocument, List.nil_append, List.mem_singleton] at hemb
  subst hemb
  rfl

/-- C3: a non-empty store searched with a query embedding whose dimension
differs from some stored embedding's dimension fails with the
dimension-mismatch error rather than returning a result. -/
theorem c3_search_dimension_mismatch (s : SimpleVectorStore) (q : List ℝ)
    (topK : Nat) (hne : s.embeddings ≠ [])
    (hmm : ∃ emb ∈ s.embeddings, emb.length ≠ q.length) :
    s.search q topK = .error "Vectors must be of the same length" := by
  unfold SimpleVectorStore.search
  rw [if_neg (fun h => hne (List.length_eq_zero.1 h))]
  have herr : s.searchScored q = .error "Vectors must be of the same length" := by
    unfold SimpleVectorStore.searchScored
    apply mapM_error_of_mem
    · intro p _
      rcases cosineSimilarity_ok_or_error q p.2 with ⟨v, hv⟩ | hbad
      · exact Or.inl ⟨_, by rw [hv]; rfl⟩
      · exact Or.inr (by rw [hbad]; rfl)
    · obtain ⟨emb, hmem, hlen⟩ := hmm
      have hmem' : emb ∈ List.map Prod.snd s.embeddings.enum := by
        rw [List.enum_eq_enumFrom, List.enumFrom_map_snd]
        exact hmem
      obtain ⟨p, hp, hpe⟩ := List.mem_map.1 hmem'
      refine ⟨p, hp, ?_⟩
      rw [cosineSimilarity_error_of_mismatch (by rw [hpe]; exact hlen)]
      rfl
  rw [herr]
  rfl

/-- A store holding one document with a two-dimensional embedding. -/
def demoStore2d : SimpleVectorStore :=
  SimpleVectorStore.emptyStore.addDocument "ab".data [(0 : ℝ), (0 : ℝ)]
    demoMeta "ts".data

/-- Witness for C3: querying 2-dimensional entries with a 1-dimensional
embedding throws. -/
theorem c3_search_dimension_mismatch_witness :
    demoStore2d.search [(0 : ℝ)] 3 = .error "Vectors must be of the same length" := by
  apply c3_search_dimension_mismatch demoStore2d [(0 : ℝ)] 3
  · simp [demoStore2d, SimpleVectorStore.emptyStore, SimpleVectorStore.addDocument]
  · refine ⟨[(0 : ℝ), (0 : ℝ)], ?_, by simp⟩
    simp [demoStore2d, SimpleVectorStore.emptyStore, SimpleVectorStore.addDocument]

/-! ## Claim C9: ingest is atomic with respect to embedding failures -/

lemma mapM_error_of_mem_error {α β : Type} (f : α → Except String β) :
    ∀ l : List α, (∃ x ∈ l, ∃ e, f x = .error e) → ∃ e', l.mapM f = .error e'
  | [], hex => by simp at hex
  | x :: l, hex => by
    cases hfa : f x with
    | error e0 => exact ⟨e0, by rw [List.mapM_cons, hfa]; rfl⟩
    | ok y =>
      obtain ⟨z, hz, e, hze⟩ := hex
      have hzl : z ∈ l := by
        rcases List.mem_cons.1 hz with rfl | hh
        · rw [hfa] at hze; exact absurd hze (by simp)
        · exact hh
      obtain ⟨e', he'⟩ := mapM_error_of_mem_error f l ⟨z, hzl, e, hze⟩
      exact ⟨e', by rw [List.mapM_cons, hfa, he']; rfl⟩

/-- C9: if embedding any chunk fails, `addDocument` inserts nothing — all
per-chunk embeddings are gathered (`Promise.all`) before the first
insertion — so it reports `success: false` and leaves the store, and hence
its entry count, unchanged. -/
theorem c9_ingest_atomic_on_embedding_failure (gw : Gateways)
    (doc : RAGSystem.ProcessedDoc) (filePath fileType ts : List Char)
    (store : SimpleVectorStore)
    (h : ∃ c ∈ doc.chunks, ∃ e, gw.embedFn c = .error e) :
    (RAGSystem.addDocument gw (.ok doc) filePath fileType ts store).1.success = false ∧
    (RAGSystem.addDocument gw (.ok doc) filePath fileType ts store).2 = store ∧
    (RAGSystem.addDocument gw (.ok doc) filePath fileType ts store).2.getDocumentCount =
      store.getDocumentCount := by
  obtain ⟨e', he'⟩ := mapM_error_of_mem_error gw.embedFn doc.chunks h
  have he'' : generateEmbeddings gw doc.chunks = .error e' := he'
  simp only [RAGSystem.addDocument, he'']
  exact ⟨trivial, trivial, trivial⟩

/-- Witness for C9: a one-chunk document whose embedding call throws. -/
theorem c9_ingest_atomic_on_embedding_failure_witness :
    (RAGSystem.addDocument demoGwEmbedFail (.ok ⟨["chunk".data]⟩)
        "f.txt".data "txt".data "ts".data demoStore).1.success = false ∧
    (RAGSystem.addDocument demoGwEmbedFail (.ok ⟨["chunk".data]⟩)
        "f.txt".data "txt".data "ts".data demoStore).2 = demoStore ∧
    (RAGSystem.addDocument demoGwEmbedFail (.ok ⟨["chunk".data]⟩)
        "f.txt".data "txt".data "ts".data demoStore).2.getDocumentCount =
      demoStore.getDocumentCount :=
  c9_ingest_atomic_on_embedding_failure demoGwEmbedFail ⟨["chunk".data]⟩
    "f.txt".data "txt".data "ts".data demoStore
    ⟨"chunk".data, List.mem_singleton.2 rfl, "rate limited", rfl⟩

/-! ## Claim C1: generation failure falls back, still succeeding -/

/-- The fallback extractor always produces a non-empty string: each of its
three stages (typed extraction report, keyword sentences, fixed apology)
does. -/
lemma createFallbackAnswer_ne_nil (question context : List Char) :
    TextGenerator.createFallbackAnswer question context ≠ [] := by
  simp only [TextGenerator.createFallbackAnswer]
  split_ifs with h1 h2
  · exact List.append_ne_nil_of_left_ne_nil (by decide) _
  · exact List.append_ne_nil_of_right_ne_nil _ (by decide)
  · decide

/-- C1: whenever the generation gateway throws, `askQuestion` still
reports `success: true`, with the Fallback Extractor's output — a
non-empty string — as the answer. -/
theorem c1_generation_failure_fallback (gw : Gateways)
    (store : SimpleVectorStore) (question : List Char) (topK : Nat)
    (qe : List ℝ) (results : List SimpleVectorStore.SearchResult) (err : String)
    (h0 : store.getDocumentCount ≠ 0)
    (h1 : gw.embedFn question = .ok qe)
    (h2 : store.search qe topK = .ok results)
    (h3 : results ≠ [])
    (h4 : gw.genFn (TextGenerator.createPrompt question
            (RAGSystem.createContext results)) = .error err) :
    (RAGSystem.askQuestion gw store question topK).1.success = true ∧
    (RAGSystem.askQuestion gw store question topK).1.answer =
      some (TextGenerator.createFallbackAnswer question
        (RAGSystem.createContext results)) ∧
    TextGenerator.createFallbackAnswer question
      (RAGSystem.createContext results) ≠ [] := by
  unfold RAGSystem.askQuestion
  rw [if_neg h0]
  simp only [h1]
  simp only [h2]
  rw [if_neg (by simpa [List.length_eq_zero] using h3)]
  unfold generateAnswer
  simp only [h4]
  exact ⟨trivial, trivial, createFallbackAnswer_ne_nil _ _⟩

/-- The single search result produced by querying `demoStore` with the
zero vector. -/
def demoResult : SimpleVectorStore.SearchResult :=
  { index := 0, similarity := 0, document := "abc".data
    metadata := { base := demoMeta, id := 0, timestamp := "ts".data } }

lemma demo_cosine : SimpleVectorStore.cosineSimilarity [(0 : ℝ)] [(0 : ℝ)] = .ok 0 := by
  unfold SimpleVectorStore.cosineSimilarity
  rw [if_neg (by simp)]
  rw [if_pos (Or.inl (by norm_num [Real.sqrt_zero]))]

lemma demo_search : demoStore.search [(0 : ℝ)] 3 = .ok [demoResult] := by
  have hscored : demoStore.searchScored [(0 : ℝ)] = .ok [demoResult] := by
    unfold SimpleVectorStore.searchScored
    simp only [demoStore, SimpleVectorStore.emptyStore, SimpleVectorStore.addDocument,
      List.nil_append]
    simp only [List.enum_cons, List.enumFrom_nil]
    rw [List.mapM_cons]
    simp only [demo_cosine]
    rfl
  unfold SimpleVectorStore.search
  rw [if_neg (by simp [demoStore, SimpleVectorStore.emptyStore,
    SimpleVectorStore.addDocument])]
  rw [hscored]
  show Except.ok (([demoResult].mergeSort SimpleVectorStore.simLE).take 3) = _
  rw [List.mergeSort_singleton]
  rfl

/-- Witness for C1: one stored document, embedding succeeds, generation
throws — `askQuestion` still succeeds with the non-empty fallback answer. -/
theorem c1_generation_failure_fallback_witness :
    (RAGSystem.askQuestion demoGwGenFail demoStore "zzzz".data 3).1.success = true ∧
    (RAGSystem.askQuestion demoGwGenFail demoStore "zzzz".data 3).1.answer =
      some (TextGenerator.createFallbackAnswer "zzzz".data
        (RAGSystem.createContext [demoResult])) ∧
    TextGenerator.createFallbackAnswer "zzzz".data
      (RAGSystem.createContext [demoResult]) ≠ [] :=
  c1_generation_failure_fallback demoGwGenFail demoStore "zzzz".data 3
    [(0 : ℝ)] [demoResult] "model unavailable"
    (by decide) rfl demo_search (by simp) rfl

/-! ## Claim C6: chunking termination

`overlap < chunkSize` does *not* suffice: with `chunkSize = 10`,
`overlap = 9` and the text below, the first window snaps back to the
sentence terminator at position 6, the cursor moves to `7 - 9 = -2`, and
from then on every iteration recomputes the same window (the slice from a
negative cursor is empty, so nothing further is even emitted) — the
JavaScript `while` loop never exits. The sufficient guard is
`2 * overlap ≤ chunkSize`, proved below. -/

def c6Text : List Char := "aaaaaa.bbbbbbbbbbbbbbbbbbbbbbb".data

lemma c6_stuck : ∀ (f : Nat) (acc : List (List Char)),
    DocumentProcessor.chunkLoop 10 9 c6Text f (-2) acc = none := by
  intro f
  induction f with
  | zero => intro _; rfl
  | succ f ih =>
    intro acc
    have hstep : DocumentProcessor.chunkLoop 10 9 c6Text (f + 1) (-2) acc =
        DocumentProcessor.chunkLoop 10 9 c6Text f (-2) acc := rfl
    rw [hstep]
    exact ih acc

/-- C6 counterexample: a configuration with `overlap < chunkSize` on which
`chunkText` does not terminate: no amount of fuel completes the loop. -/
theorem c6_counterexample :
    (9 : Int) < 10 ∧ ¬ DocumentProcessor.ChunkTextTerminates 10 9 c6Text := by
  refine ⟨by norm_num, ?_⟩
  rintro ⟨fuel, hfuel⟩
  cases fuel with
  | zero =>
    have h0 : DocumentProcessor.chunkText 10 9 c6Text 0 = none := rfl
    rw [h0] at hfuel
    simp at hfuel
  | succ f =>
    have h1 : DocumentProcessor.chunkText 10 9 c6Text (f + 1) =
        DocumentProcessor.chunkLoop 10 9 c6Text f (-2) ["aaaaaa.".data] := rfl
    rw [h1, c6_stuck f _] at hfuel
    simp at hfuel

lemma chunkEnd_lb (cs ov : Int) (text : List Char) (start : Int)
    (h1 : 1 ≤ cs) (h2 : 0 ≤ ov) (h3 : 2 * ov ≤ cs) :
    start + ov + 1 ≤ DocumentProcessor.chunkEnd cs text start := by
  simp only [DocumentProcessor.chunkEnd]
  split_ifs <;> omega

lemma chunkLoop_terminates (cs ov : Int) (text : List Char)
    (h1 : 1 ≤ cs) (h2 : 0 ≤ ov) (h3 : 2 * ov ≤ cs) :
    ∀ (fuel : Nat) (start : Int) (acc : List (List Char)),
      (text.length : Int) ≤ start + fuel →
      (DocumentProcessor.chunkLoop cs ov text fuel start acc).isSome := by
  intro fuel
  induction fuel with
  | zero =>
    intro start acc hb
    rw [DocumentProcessor.chunkLoop]
    rw [if_neg (by push_cast at hb ⊢; omega)]
    rfl
  | succ f ih =>
    intro start acc hb
    rw [DocumentProcessor.chunkLoop]
    by_cases hlt : start < (text.length : Int)
    · rw [if_pos hlt]
      have hlb := chunkEnd_lb cs ov text start h1 h2 h3
      exact ih _ _ (by push_cast at hb ⊢; omega)
    · rw [if_neg hlt]
      rfl

/-- C6 amended: the guard that actually ensures cursor progress (and hence
termination of `chunkText` on every input) is `2 * overlap ≤ chunkSize`
(with a positive chunk size and non-negative overlap), not
`overlap < chunkSize`. -/
theorem c6_amended_termination (cs ov : Int) (text : List Char)
    (h1 : 1 ≤ cs) (h2 : 0 ≤ ov) (h3 : 2 * ov ≤ cs) :
    DocumentProcessor.ChunkTextTerminates cs ov text := by
  by_cases hshort : (text.length : Int) ≤ cs
  · exact ⟨0, by rw [DocumentProcessor.chunkText, if_pos hshort]; rfl⟩
  · refine ⟨text.length, ?_⟩
    rw [DocumentProcessor.chunkText, if_neg hshort]
    exact chunkLoop_terminates cs ov text h1 h2 h3 text.length 0 [] (by omega)

/-- Witness for the amended C6 at the default-style configuration ratio. -/
theorem c6_amended_termination_witness :
    DocumentProcessor.ChunkTextTerminates 10 5 c6Text :=
  c6_amended_termination 10 5 c6Text (by norm_num) (by norm_num) (by norm_num)

/-! ## Claim C7: chunk elements are non-empty after trimming

The short-text branch returns `[text.trim()]` even when the trimmed text
is empty (e.g. the empty input), so the claim fails there; every chunk
pushed by the loop branch is checked to be non-empty, and the short branch
is fine as soon as the input has any non-whitespace character. -/

lemma mem_dropWhile_of_neg {α : Type} (p : α → Bool) :
    ∀ (l : List α) (x : α), x ∈ l → p x = false → x ∈ l.dropWhile p
  | a :: l, x, hx, hpx => by
    rw [List.dropWhile_cons]
    by_cases hpa : p a
    · rw [if_pos hpa]
      rcases List.mem_cons.1 hx with rfl | hh
      · rw [hpa] at hpx; cases hpx
      · exact mem_dropWhile_of_neg p l x hh hpx
    · rw [if_neg hpa]
      exact hx

/-- Any list containing a non-whitespace character trims to something
non-empty. -/
lemma jsTrim_ne_nil_of_mem {l : List Char} {x : Char}
    (hx : x ∈ l) (hw : isJsWs x = false) : jsTrim l ≠ [] := by
  unfold jsTrim jsTrimEnd jsTrimStart
  apply List.ne_nil_of_mem (a := x)
  rw [List.mem_reverse]
  apply mem_dropWhile_of_neg _ _ _ _ hw
  rw [List.mem_reverse]
  exact mem_dropWhile_of_neg _ _ _ hx hw

/-- A non-empty trimmed list contains a non-whitespace character. -/
lemma exists_nonws_of_jsTrim_ne_nil {l : List Char} (h : jsTrim l ≠ []) :
    ∃ x ∈ jsTrim l, isJsWs x = false := by
  unfold jsTrim jsTrimEnd at h ⊢
  set z := (jsTrimStart l).reverse.dropWhile isJsWs with hz
  have hzne : z ≠ [] := fun hznil => h (by rw [hznil]; rfl)
  refine ⟨z.head hzne, ?_, List.head_dropWhile_not isJsWs _ hzne⟩
  rw [List.mem_reverse]
  exact List.head_mem hzne

/-- Trimming is stable on values already of the form `jsTrim raw`. -/
lemma jsTrim_jsTrim_ne_nil {raw : List Char} (h : jsTrim raw ≠ []) :
    jsTrim (jsTrim raw) ≠ [] := by
  obtain ⟨x, hx, hw⟩ := exists_nonws_of_jsTrim_ne_nil h
  exact jsTrim_ne_nil_of_mem hx hw

/-- C7 counterexample: the empty input takes the short-text branch and the
single returned element is empty after trimming. -/
theorem c7_counterexample :
    DocumentProcessor.chunkText 500 50 [] 0 = some [[]] ∧
    ¬ (∀ c ∈ [([] : List Char)], jsTrim c ≠ []) :=
  ⟨rfl, fun h => h [] (List.mem_singleton.2 rfl) rfl⟩

lemma chunkLoop_elems (cs ov : Int) (text : List Char) :
    ∀ (fuel : Nat) (start : Int) (acc chunks : List (List Char)),
      (∀ c ∈ acc, jsTrim c ≠ []) →
      DocumentProcessor.chunkLoop cs ov text fuel start acc = some chunks →
      ∀ c ∈ chunks, jsTrim c ≠ [] := by
  intro fuel
  induction fuel with
  | zero =>
    intro start acc chunks hacc hres
    rw [DocumentProcessor.chunkLoop] at hres
    split_ifs at hres <;> cases hres <;> exact hacc
  | succ f ih =>
    intro start acc chunks hacc hres
    rw [DocumentProcessor.chunkLoop] at hres
    split_ifs at hres with hlt
    · refine ih _ _ _ ?_ hres
      set chunk := jsTrim (jsSlice text start (DocumentProcessor.chunkEnd cs text start))
        with hchunk
      intro c hc
      by_cases hlen : chunk.length > 0
      · rw [if_pos hlen] at hc
        rcases List.mem_append.1 hc with hold | hnew
        · exact hacc c hold
        · rw [List.mem_singleton.1 hnew, hchunk]
          apply jsTrim_jsTrim_ne_nil
          rw [← hchunk]
          exact fun hnil => by rw [hnil] at hlen; simp at hlen
      · rw [if_neg hlen] at hc
        exact hacc c hc
    · cases Option.some.inj hres
      exact hacc

/-- C7 amended: every element of a completed `chunkText` run is non-empty
after trimming, provided the input itself is non-empty after trimming (the
loop branch needs no proviso; the short-text branch returns the trimmed
input whole, which is where the proviso bites). -/
theorem c7_amended_chunks_nonempty (cs ov : Int) (text : List Char)
    (fuel : Nat) (chunks : List (List Char))
    (hres : DocumentProcessor.chunkText cs ov text fuel = some chunks)
    (hne : jsTrim text ≠ []) :
    ∀ c ∈ chunks, jsTrim c ≠ [] := by
  unfold DocumentProcessor.chunkText at hres
  split_ifs at hres with hshort
  · cases Option.some.inj hres
    intro c hc
    rw [List.mem_singleton.1 hc]
    exact jsTrim_jsTrim_ne_nil hne
  · exact chunkLoop_elems cs ov text fuel 0 [] chunks (by intro c hc; cases hc) hres

/-- Witness for the amended C7 on a short non-blank text. -/
theorem c7_amended_chunks_nonempty_witness :
    jsTrim "abc".data ≠ [] :=
  c7_amended_chunks_nonempty 500 50 "abc".data 0 ["abc".data] rfl (by decide)
    "abc".data (List.mem_singleton.2 rfl)
